import Mathlib

/-!
Verification of the citation-rendering adapter in `cpjs/cite.js` (the
`cite` command of the zothero repository).

The JavaScript source is shallowly embedded: JS strings are Lean `String`
(lists of characters), JS `undefined`/`null` values are `Option`, the JXA
process-exit paths of `showHelp` are an explicit `ParseResult.exit`
constructor, and the stateful CSL engine is an abstract `EngineModel`
whose interactions are recorded as an explicit call trace.
-/

namespace CiteJs

/-- JS truthiness for a string-or-missing value (`null`/`undefined` and the
empty string are falsy, every other string is truthy). -/
def jsTruthy : Option String → Bool
  | none => false
  | some s => !(s == "")

/-- JS `<` on a possibly-`undefined` loop counter: `undefined < n` is `false`
(the comparison goes through `NaN`). A defined counter compares numerically. -/
def jsNumLt (i : Option Nat) (n : Nat) : Bool :=
  match i with
  | none => false
  | some k => decide (k < n)

/-- Loop of `Array.prototype.contains` from cite.js:
`for (var i; i < this.length; i++) { if (this[i] === val) return true }`.
The counter is `Option Nat` because `var i;` leaves it `undefined`.  Fuel
bounds the iteration count (the real loop, when its guard holds, advances
the counter towards the length). -/
def jsContainsGo (arr : List String) (val : String) : Nat → Option Nat → Bool
  | 0, _ => false
  | fuel + 1, i =>
    if jsNumLt i arr.length then
      match i with
      | none => false
      | some k =>
        if (arr.get? k).any (fun x => x == val) then true
        else jsContainsGo arr val fuel (some (k + 1))
    else false

/-- `Array.prototype.contains` from cite.js, entered with the uninitialised
(`undefined`) counter of `for (var i; i < this.length; i++)`. -/
def jsContains (arr : List String) (val : String) : Bool :=
  jsContainsGo arr val (arr.length + 1) none

/-- The JS whitespace set recognised by `String.prototype.trim`. -/
def jsIsWs (c : Char) : Bool :=
  c == ' ' || c == '\t' || c == '\n' || c == '\r' || c == '\x0b' || c == '\x0c' ||
  c == '\u00A0' || c == '\uFEFF' || c == '\u1680' ||
  (decide ('\u2000' ≤ c) && decide (c ≤ '\u200A')) ||
  c == '\u2028' || c == '\u2029' || c == '\u202F' || c == '\u205F' || c == '\u3000'

/-- JS `String.prototype.trim`: drop leading and trailing whitespace. -/
def jsTrim (s : String) : String :=
  (((s.toList.dropWhile jsIsWs).reverse.dropWhile jsIsWs).reverse).asString

/-! ## ArgumentParser (`showHelp`, `parseArgs`) -/

/-- The mutable `opts` object built by `parseArgs`.  `locale`, `style` and
`csl` start as JS `null` (`none`); `localeDir` starts as `"./locales"` and
can be overwritten with `undefined` (`none`) by a trailing `-L`. -/
structure Opts where
  locale : Option String
  localeDir : Option String
  style : Option String
  csl : Option String
  bibliography : Bool
  verbose : Bool
deriving DecidableEq, Repr

/-- Initial value of `opts` in `parseArgs`. -/
def initOpts : Opts :=
  { locale := none, localeDir := some "./locales", style := none, csl := none,
    bibliography := false, verbose := false }

/-- Result of argument parsing: either the process exits (via `showHelp` and
`$.exit`) with a status and an optional error message, or parsing succeeds. -/
inductive ParseResult where
  | exit (status : Nat) (errMsg : Option String)
  | ok (opts : Opts)
deriving DecidableEq, Repr

/-- `showHelp(errMsg)`: prints usage and exits; status is 1 exactly when a
truthy error message was passed, 0 otherwise. -/
def showHelp (errMsg : Option String) : ParseResult :=
  if jsTruthy errMsg then ParseResult.exit 1 errMsg else ParseResult.exit 0 none

/-- JS `s.startsWith('-')`: the string begins with the flag marker.  (For a
one-character prefix this is exactly a first-character test.) -/
def startsWithDash (s : String) : Bool :=
  match s.toList with
  | [] => false
  | c :: _ => c == '-'

/-- Token test of the initial `forEach` help scan in `parseArgs`. -/
def isHelpTok (s : String) : Bool :=
  s == "-h" || s == "--help"

/-- Tail of `parseArgs` after the flag loop: the positional-argument checks
and assignments (`args.length > 2` is a usage error; `args[0]` is the style
path, `args[1]` the record path). -/
def finalizeArgs (args : List String) (opts : Opts) : ParseResult :=
  if args.length > 2 then showHelp (some "script takes 2 arguments")
  else ParseResult.ok { opts with style := args.get? 0, csl := args.get? 1 }

/-- The `for (var i=0; i < argv.length; i++)` flag-extraction loop of
`parseArgs`.  `-l`/`--locale` and `-L`/`--locale-dir` consume `argv[i+1]`
unconditionally (reading `undefined`, i.e. `none`, past the end). -/
def parseLoop : List String → List String → Opts → ParseResult
  | [], args, opts => finalizeArgs args opts
  | s :: rest, args, opts =>
    if startsWithDash s then
      if s = "--locale" ∨ s = "-l" then
        match rest with
        | [] => parseLoop [] args { opts with locale := none }
        | v :: rest2 => parseLoop rest2 args { opts with locale := some v }
      else if s = "--locale-dir" ∨ s = "-L" then
        match rest with
        | [] => parseLoop [] args { opts with localeDir := none }
        | v :: rest2 => parseLoop rest2 args { opts with localeDir := some v }
      else if s = "--bibliography" ∨ s = "-b" then
        parseLoop rest args { opts with bibliography := true }
      else if s = "--verbose" ∨ s = "-v" then
        parseLoop rest args { opts with verbose := true }
      else
        showHelp (some ("unknown option: " ++ s))
    else
      parseLoop rest (args ++ [s]) opts

/-- `parseArgs(argv)`: scan for a help flag first (exits 0), exit 0 on an
empty argument list, otherwise run the flag loop. -/
def parseArgs (argv : List String) : ParseResult :=
  if argv.any isHelpTok then showHelp none
  else if argv.length = 0 then showHelp none
  else parseLoop argv [] initOpts

/-- Specification mirror of the flag loop: the first token the loop reaches
that starts with `-` but is not a recognised flag (tokens consumed as values
of `-l`/`-L` are skipped). -/
def firstBadFlag : List String → Option String
  | [] => none
  | s :: rest =>
    if startsWithDash s then
      if s = "--locale" ∨ s = "-l" then
        match rest with
        | [] => none
        | _ :: rest2 => firstBadFlag rest2
      else if s = "--locale-dir" ∨ s = "-L" then
        match rest with
        | [] => none
        | _ :: rest2 => firstBadFlag rest2
      else if s = "--bibliography" ∨ s = "-b" then firstBadFlag rest
      else if s = "--verbose" ∨ s = "-v" then firstBadFlag rest
      else some s
    else firstBadFlag rest

/-- Specification mirror of the flag loop: the positional (non-flag) tokens
it collects, in order. -/
def positionals : List String → List String
  | [] => []
  | s :: rest =>
    if startsWithDash s then
      if s = "--locale" ∨ s = "-l" then
        match rest with
        | [] => []
        | _ :: rest2 => positionals rest2
      else if s = "--locale-dir" ∨ s = "-L" then
        match rest with
        | [] => []
        | _ :: rest2 => positionals rest2
      else if s = "--bibliography" ∨ s = "-b" then positionals rest
      else if s = "--verbose" ∨ s = "-v" then positionals rest
      else positionals rest
    else s :: positionals rest

/-! ## ResourceLoader (`readFile`, `Citer.prototype.retrieveLocale`)

The filesystem is abstracted as `fs : String → Option String` (the contents
of each readable file).  The two ObjC primitives called by `readFile` are
not part of the repository, so their failure behaviour is modelled from the
spec. -/

/-- Modelled from the spec: `NSFileManager.contentsAtPath` is external to the
repository; it yields the file's data, or `nil` (`none`) when the path does
not name a readable file. -/
def contentsAtPath (fs : String → Option String) (path : String) : Option String :=
  fs path

/-- Modelled from the spec: `NSString.alloc.initWithDataEncoding` is external
to the repository.  Per spec §4.2 the read of a missing or unreadable path
"fails with a filesystem/IO error" that "must propagate to the caller";
decoding `nil` data is that failure, surfaced in JXA as a thrown error
(`Except.error`), never as a string result. -/
def initWithDataEncoding : Option String → Except String String
  | none => Except.error "IO error: file missing or unreadable"
  | some d => Except.ok d

/-- `readFile(path)` from cite.js: decode the bytes at `path` as UTF-8.  No
error is caught and no default is substituted. -/
def readFile (fs : String → Option String) (path : String) : Except String String :=
  initWithDataEncoding (contentsAtPath fs path)

/-- JS template-string rendering of a possibly-`undefined` value. -/
def jsTemplate : Option String → String
  | none => "undefined"
  | some s => s

/-- The locale-file path interpolated by `retrieveLocale`:
`` `${this.opts.localeDir}/locales-${lang}.xml` ``. -/
def localeFilePath (opts : Opts) (lang : String) : String :=
  jsTemplate opts.localeDir ++ "/locales-" ++ lang ++ ".xml"

/-- `Citer.prototype.retrieveLocale`: read the locale file and return the
result of `readFile` directly (no catch, no fallback). -/
def retrieveLocale (fs : String → Option String) (opts : Opts) (lang : String) :
    Except String String :=
  readFile fs (localeFilePath opts lang)

/-! ## OutputFormatter (`stripOuterDiv`)

`stripOuterDiv` runs the JS regex `^<div.*?>(.+)</div>$` (no flags: `.`
matches no line terminator, `$` only the end of the string) and returns the
first capture on a match, the input otherwise.  The regex is embedded by a
scanner `findA` that mirrors the engine exactly: the lazy `.*?` extends the
attribute span one character at a time, and for each candidate span the
anchored tail `(.+)</div>$` admits exactly one split, checked by
`matchTail`. -/

/-- Characters matched by `.` in a JS regex without the dotAll flag. -/
def isDot (c : Char) : Bool :=
  !(c == '\n' || c == '\r' || c == '\u2028' || c == '\u2029')

/-- The characters of the literal `<div` head of the regex. -/
def wrapPrefix : List Char := ['<', 'd', 'i', 'v']

/-- The characters of the literal `</div>` tail of the regex. -/
def wrapSuffix : List Char := ['<', '/', 'd', 'i', 'v', '>']

/-- Match of `(.+)</div>$` against the characters after the `>`: the capture
must be the whole text minus a final literal `</div>`, nonempty, and free of
line terminators.  Returns the capture. -/
def matchTail (t : List Char) : Option (List Char) :=
  if 7 ≤ t.length ∧ t.drop (t.length - 6) = wrapSuffix ∧
      (t.take (t.length - 6)).all isDot = true then
    some (t.take (t.length - 6))
  else none

/-- Scanner for `.*?>(.+)</div>$` after the literal `<div`: at each position
first try to read the `>` here (lazy `.*?`), and only on failure extend the
attribute span — which is possible only through characters matched by `.`. -/
def findA : List Char → Option (List Char)
  | [] => none
  | c :: rest =>
    if c = '>' then
      match matchTail rest with
      | some b => some b
      | none => if isDot c then findA rest else none
    else if isDot c then findA rest else none

/-- `stripOuterDiv(html)` from cite.js: on a regex match return the capture
(the content between the outer tags), otherwise the input unchanged. -/
def stripOuterDiv (html : String) : String :=
  if html.toList.take 4 = wrapPrefix then
    match findA (html.toList.drop 4) with
    | some b => b.asString
    | none => html
  else html

/-- Declarative form of the wrapper pattern the regex recognises: the string
is `<div`, an attribute span, `>`, a nonempty capture, `</div>`, where the
attribute span and the capture contain no line terminators. -/
def MatchesWrapperPattern (s : String) : Prop :=
  ∃ a b, s.toList = wrapPrefix ++ (a ++ '>' :: (b ++ wrapSuffix)) ∧
    a.all isDot = true ∧ b.all isDot = true ∧ b ≠ []

/-! ## CitationEngineAdapter (`Citer`)

The external CSL engine is a black box: an `EngineModel` gives, for each
output format, the values its render entry points would return.  `cite`
threads the engine's mutable output format explicitly and records every
engine interaction in a call trace. -/

/-- The engine's mutable output-format state.  `html` is the engine's
default format; `setOutputFormat('rtf')` switches to `rtf`. -/
inductive Format where
  | html
  | rtf
deriving DecidableEq, Repr

/-- Black-box model of the CSL engine bound to one record: what each render
entry point returns in each output format. -/
structure EngineModel where
  bibMeta : Format → List String
  bibEntries : Format → List String
  citationCluster : Format → List String → String

/-- `makeBibliography()`: the engine's two-part result in the current output
format; component 0 is per-item metadata, component 1 the ordered entries. -/
def makeBibliography (e : EngineModel) (fmt : Format) : List String × List String :=
  (e.bibMeta fmt, e.bibEntries fmt)

/-- One engine interaction performed by `Citer.prototype.cite`, tagged with
the engine's output format at the moment of the call. -/
inductive EngineCall where
  | updateItems (ids : List String)
  | makeBib (fmt : Format)
  | makeCluster (fmt : Format) (ids : List String)
  | setOutputFormat (fmt : Format)
deriving DecidableEq, Repr

/-- The `{html, rtf}` object returned by `Citer.prototype.cite`. -/
structure RenderResult where
  html : String
  rtf : String
deriving DecidableEq, Repr

/-- Locale determination in the `Citer` constructor:
`var locale = 'en', force = false; if (opts.locale) { locale = opts.locale;
force = true }` — the pair passed to `new CSL.Engine`. -/
def effectiveLocale (optLocale : Option String) : String × Bool :=
  if jsTruthy optLocale then (optLocale.getD "en", true) else ("en", false)

/-- `Citer.prototype.cite`: render the single item in both formats, starting
in the engine's default (`html`) format and switching the engine to `rtf`
between the two passes.  Returns the result object and the engine-call
trace in execution order. -/
def cite (e : EngineModel) (id : String) (bibliography : Bool) :
    RenderResult × List EngineCall :=
  let fmt0 := Format.html
  if bibliography then
    let html := stripOuterDiv (jsTrim (String.intercalate "\n" (makeBibliography e fmt0).2))
    let fmt1 := Format.rtf
    let rtf := String.intercalate "\n" (makeBibliography e fmt1).2
    ({ html := html, rtf := rtf },
     [EngineCall.updateItems [id], EngineCall.makeBib fmt0,
      EngineCall.setOutputFormat Format.rtf, EngineCall.makeBib fmt1])
  else
    let html := e.citationCluster fmt0 [id]
    let fmt1 := Format.rtf
    let rtf := e.citationCluster fmt1 [id]
    ({ html := html, rtf := rtf },
     [EngineCall.updateItems [id], EngineCall.makeCluster fmt0 [id],
      EngineCall.setOutputFormat Format.rtf, EngineCall.makeCluster fmt1 [id]])

/-- The raw bibliography string the engine hands the adapter in HTML mode:
`makeBibliography()[1].join('\n')`. -/
def rawBibHtml (e : EngineModel) : String :=
  String.intercalate "\n" (makeBibliography e Format.html).2

/-- A sample engine whose bibliography is one wrapper-enclosed entry. -/
def sampleBibEngine : EngineModel where
  bibMeta := fun _ => []
  bibEntries := fun _ => ["<div>Doe</div>"]
  citationCluster := fun _ _ => "Doe (2020)"

/-- A sample engine whose joined bibliography is a single outer wrapper
element with a line break inside its content. -/
def newlineBibEngine : EngineModel where
  bibMeta := fun _ => []
  bibEntries := fun _ => ["<div>a", "b</div>"]
  citationCluster := fun _ _ => ""

/-- An empty filesystem: no path is readable. -/
def emptyFs : String → Option String := fun _ => none

/-! ## Helper lemmas about the wrapper-stripping regex -/

lemma dropWhile_cons_false {p : Char → Bool} {c : Char} {l : List Char}
    (h : p c = false) : List.dropWhile p (c :: l) = c :: l := by
  rw [List.dropWhile_cons, h]
  simp

lemma matchTail_sound {t b : List Char} (h : matchTail t = some b) :
    t = b ++ wrapSuffix ∧ b.all isDot = true ∧ b ≠ [] := by
  unfold matchTail at h
  split at h
  · rename_i hc
    obtain ⟨h7, hdrop, hall⟩ := hc
    injection h with hb
    subst hb
    refine ⟨?_, hall, ?_⟩
    · conv_lhs => rw [← List.take_append_drop (t.length - 6) t]
      rw [hdrop]
    · have hlen : (t.take (t.length - 6)).length = t.length - 6 := by
        rw [List.length_take]
        omega
      intro hb
      rw [hb] at hlen
      simp at hlen
      omega
  · cases h

lemma matchTail_complete {b : List Char} (hall : b.all isDot = true) (hne : b ≠ []) :
    matchTail (b ++ wrapSuffix) = some b := by
  have hlen : (b ++ wrapSuffix).length = b.length + 6 := by
    simp [wrapSuffix]
  have hbpos : 0 < b.length := List.length_pos.2 hne
  have h6 : (b ++ wrapSuffix).length - 6 = b.length := by omega
  unfold matchTail
  rw [h6]
  rw [if_pos]
  · rw [List.take_left]
  · refine ⟨by omega, ?_, ?_⟩
    · rw [List.drop_left]
    · rw [List.take_left]
      exact hall

lemma findA_sound : ∀ (cs b : List Char), findA cs = some b →
    ∃ a, cs = a ++ '>' :: (b ++ wrapSuffix) ∧ a.all isDot = true ∧
      b.all isDot = true ∧ b ≠ []
  | [], b, h => by simp [findA] at h
  | c :: rest, b, h => by
    unfold findA at h
    by_cases hc : c = '>'
    · rw [if_pos hc] at h
      cases hmt : matchTail rest with
      | some b2 =>
        rw [hmt] at h
        injection h with hb
        subst hb
        obtain ⟨ht, hall, hne⟩ := matchTail_sound hmt
        exact ⟨[], by rw [hc, ht]; rfl, rfl, hall, hne⟩
      | none =>
        rw [hmt] at h
        simp only at h
        by_cases hd : isDot c = true
        · rw [if_pos hd] at h
          obtain ⟨a, ha, hallA, hallB, hbne⟩ := findA_sound rest b h
          exact ⟨c :: a, by rw [ha]; rfl, by simp [List.all_cons, hd, hallA], hallB, hbne⟩
        · rw [if_neg hd] at h
          cases h
    · rw [if_neg hc] at h
      by_cases hd : isDot c = true
      · rw [if_pos hd] at h
        obtain ⟨a, ha, hallA, hallB, hbne⟩ := findA_sound rest b h
        exact ⟨c :: a, by rw [ha]; rfl, by simp [List.all_cons, hd, hallA], hallB, hbne⟩
      · rw [if_neg hd] at h
        cases h

lemma findA_complete : ∀ (a b : List Char), a.all isDot = true → b.all isDot = true →
    b ≠ [] → ∃ b2, findA (a ++ '>' :: (b ++ wrapSuffix)) = some b2
  | [], b, _, hball, hbne => ⟨b, by simp [findA, matchTail_complete hball hbne]⟩
  | c :: a2, b, hall, hball, hbne => by
    rw [List.all_cons, Bool.and_eq_true] at hall
    obtain ⟨b2, hb2⟩ := findA_complete a2 b hall.2 hball hbne
    show ∃ b2, findA (c :: (a2 ++ '>' :: (b ++ wrapSuffix))) = some b2
    unfold findA
    by_cases hc : c = '>'
    · rw [if_pos hc]
      cases hmt : matchTail (a2 ++ '>' :: (b ++ wrapSuffix)) with
      | some b3 => exact ⟨b3, rfl⟩
      | none =>
        simp only
        rw [if_pos hall.1]
        exact ⟨b2, hb2⟩
    · rw [if_neg hc, if_pos hall.1]
      exact ⟨b2, hb2⟩

lemma strip_eq_self_of_not_matches {s : String} (h : ¬ MatchesWrapperPattern s) :
    stripOuterDiv s = s := by
  unfold stripOuterDiv
  by_cases hp : s.toList.take 4 = wrapPrefix
  · rw [if_pos hp]
    cases hf : findA (s.toList.drop 4) with
    | none => rfl
    | some b =>
      exfalso
      obtain ⟨a, ha, hallA, hallB, hbne⟩ := findA_sound _ _ hf
      refine h ⟨a, b, ?_, hallA, hallB, hbne⟩
      conv_lhs => rw [← List.take_append_drop 4 s.toList]
      rw [hp, ha]
  · rw [if_neg hp]

lemma strip_of_matches {s : String} (h : MatchesWrapperPattern s) :
    ∃ b2 : List Char, stripOuterDiv s = b2.asString ∧ b2.length + 11 ≤ s.toList.length := by
  obtain ⟨a, b, heq, hallA, hallB, hbne⟩ := h
  have hp : s.toList.take 4 = wrapPrefix := by
    rw [heq]
    exact List.take_left' rfl
  have hd : s.toList.drop 4 = a ++ '>' :: (b ++ wrapSuffix) := by
    rw [heq]
    exact List.drop_left' rfl
  obtain ⟨b2, hb2⟩ := findA_complete a b hallA hallB hbne
  rw [← hd] at hb2
  refine ⟨b2, ?_, ?_⟩
  · unfold stripOuterDiv
    rw [if_pos hp, hb2]
  · obtain ⟨a2, ha2, -, -, hbne2⟩ := findA_sound _ _ hb2
    have hlen4 : 4 ≤ s.toList.length := by
      rw [heq]
      simp [wrapPrefix]
    have hsplit : s.toList.length = 4 + (s.toList.drop 4).length := by
      rw [List.length_drop]
      omega
    have hlen2 : (s.toList.drop 4).length = a2.length + b2.length + 7 := by
      rw [ha2]
      simp [wrapSuffix]
      omega
    omega

lemma strip_ne_self_of_matches {s : String} (h : MatchesWrapperPattern s) :
    stripOuterDiv s ≠ s := by
  obtain ⟨b2, hb2, hlen⟩ := strip_of_matches h
  intro hcontra
  rw [hb2] at hcontra
  have h2 := congrArg String.toList hcontra
  have hred : (b2.asString).toList = b2 := rfl
  rw [hred] at h2
  rw [← h2] at hlen
  omega

lemma jsTrim_eq_self_of_matches {s : String} (h : MatchesWrapperPattern s) :
    jsTrim s = s := by
  obtain ⟨a, b, heq, -, -, -⟩ := h
  have h2 : s.toList = (wrapPrefix ++ a ++ '>' :: b) ++ wrapSuffix := by
    rw [heq]
    simp [List.append_assoc]
  have hdw : s.toList.dropWhile jsIsWs = s.toList := by
    rw [heq]
    exact dropWhile_cons_false (by decide)
  have hrev : s.toList.reverse.dropWhile jsIsWs = s.toList.reverse := by
    rw [h2, List.reverse_append]
    exact dropWhile_cons_false (by decide)
  unfold jsTrim
  rw [hdw, hrev, List.reverse_reverse]
  rfl

/-! ## Helper lemmas about the argument parser -/

lemma showHelp_pos {m : String} (hm : m ≠ "") :
    showHelp (some m) = ParseResult.exit 1 (some m) := by
  simp [showHelp, jsTruthy, hm]

lemma unknown_msg_ne_empty (s : String) : ("unknown option: " ++ s) ≠ "" := by
  intro h
  have h2 := congrArg String.length h
  rw [String.length_append] at h2
  have h3 : ("unknown option: " : String).length = 16 := rfl
  have h4 : ("" : String).length = 0 := rfl
  rw [h3, h4] at h2
  omega

lemma parseLoop_cons_nonflag {t : String} {rest args : List String} {opts : Opts}
    (h : startsWithDash t = false) :
    parseLoop (t :: rest) args opts = parseLoop rest (args ++ [t]) opts := by
  rw [parseLoop.eq_def]
  simp [h]

lemma positionals_cons_nonflag {t : String} {rest : List String}
    (h : startsWithDash t = false) :
    positionals (t :: rest) = t :: positionals rest := by
  rw [positionals.eq_def]
  simp [h]

lemma firstBadFlag_cons_nonflag {t : String} {rest : List String}
    (h : startsWithDash t = false) :
    firstBadFlag (t :: rest) = firstBadFlag rest := by
  rw [firstBadFlag.eq_def]
  simp [h]

lemma parseLoop_badflag : ∀ (argv args : List String) (opts : Opts) (s : String),
    firstBadFlag argv = some s →
    parseLoop argv args opts = ParseResult.exit 1 (some ("unknown option: " ++ s))
  | [], _, _, s, h => by simp [firstBadFlag] at h
  | t :: rest, args, opts, s, h => by
    by_cases hl : t = "--locale" ∨ t = "-l"
    · rcases hl with rfl | rfl <;>
        cases rest with
        | nil =>
          rw [firstBadFlag.eq_def] at h
          simp [startsWithDash] at h
        | cons v rest2 =>
          rw [firstBadFlag.eq_def] at h
          simp [startsWithDash] at h
          rw [parseLoop.eq_def]
          simp [startsWithDash]
          exact parseLoop_badflag rest2 args _ s h
    · by_cases hL : t = "--locale-dir" ∨ t = "-L"
      · rcases hL with rfl | rfl <;>
          cases rest with
          | nil =>
            rw [firstBadFlag.eq_def] at h
            simp [startsWithDash] at h
          | cons v rest2 =>
            rw [firstBadFlag.eq_def] at h
            simp [startsWithDash] at h
            rw [parseLoop.eq_def]
            simp [startsWithDash]
            exact parseLoop_badflag rest2 args _ s h
      · by_cases hb : t = "--bibliography" ∨ t = "-b"
        · rcases hb with rfl | rfl <;>
            (rw [firstBadFlag.eq_def] at h
             simp [startsWithDash] at h
             rw [parseLoop.eq_def]
             simp [startsWithDash]
             exact parseLoop_badflag rest args _ s h)
        · by_cases hv : t = "--verbose" ∨ t = "-v"
          · rcases hv with rfl | rfl <;>
              (rw [firstBadFlag.eq_def] at h
               simp [startsWithDash] at h
               rw [parseLoop.eq_def]
               simp [startsWithDash]
               exact parseLoop_badflag rest args _ s h)
          · by_cases hdash : startsWithDash t = true
            · rw [firstBadFlag.eq_def] at h
              simp [hdash, hl, hL, hb, hv] at h
              subst h
              rw [parseLoop.eq_def]
              simp [hdash, hl, hL, hb, hv]
              exact showHelp_pos (unknown_msg_ne_empty t)
            · rw [Bool.not_eq_true] at hdash
              rw [firstBadFlag_cons_nonflag hdash] at h
              rw [parseLoop_cons_nonflag hdash]
              exact parseLoop_badflag rest (args ++ [t]) opts s h

lemma parseLoop_complete : ∀ (argv args : List String) (opts : Opts),
    firstBadFlag argv = none →
    ∃ opts2, parseLoop argv args opts = finalizeArgs (args ++ positionals argv) opts2
  | [], args, opts, _ => ⟨opts, by simp [parseLoop, positionals]⟩
  | t :: rest, args, opts, h => by
    by_cases hl : t = "--locale" ∨ t = "-l"
    · rcases hl with rfl | rfl <;>
        cases rest with
        | nil =>
          refine ⟨{ opts with locale := none }, ?_⟩
          rw [parseLoop.eq_def, positionals.eq_def]
          simp [startsWithDash, parseLoop]
        | cons v rest2 =>
          rw [firstBadFlag.eq_def] at h
          simp [startsWithDash] at h
          obtain ⟨opts2, ho⟩ := parseLoop_complete rest2 args _ h
          refine ⟨opts2, ?_⟩
          rw [parseLoop.eq_def, positionals.eq_def]
          simp [startsWithDash]
          exact ho
    · by_cases hL : t = "--locale-dir" ∨ t = "-L"
      · rcases hL with rfl | rfl <;>
          cases rest with
          | nil =>
            refine ⟨{ opts with localeDir := none }, ?_⟩
            rw [parseLoop.eq_def, positionals.eq_def]
            simp [startsWithDash, parseLoop]
          | cons v rest2 =>
            rw [firstBadFlag.eq_def] at h
            simp [startsWithDash] at h
            obtain ⟨opts2, ho⟩ := parseLoop_complete rest2 args _ h
            refine ⟨opts2, ?_⟩
            rw [parseLoop.eq_def, positionals.eq_def]
            simp [startsWithDash]
            exact ho
      · by_cases hb : t = "--bibliography" ∨ t = "-b"
        · rcases hb with rfl | rfl <;>
            (rw [firstBadFlag.eq_def] at h
             simp [startsWithDash] at h
             obtain ⟨opts2, ho⟩ := parseLoop_complete rest args _ h
             refine ⟨opts2, ?_⟩
             rw [parseLoop.eq_def, positionals.eq_def]
             simp [startsWithDash]
             exact ho)
        · by_cases hv : t = "--verbose" ∨ t = "-v"
          · rcases hv with rfl | rfl <;>
              (rw [firstBadFlag.eq_def] at h
               simp [startsWithDash] at h
               obtain ⟨opts2, ho⟩ := parseLoop_complete rest args _ h
               refine ⟨opts2, ?_⟩
               rw [parseLoop.eq_def, positionals.eq_def]
               simp [startsWithDash]
               exact ho)
          · by_cases hdash : startsWithDash t = true
            · rw [firstBadFlag.eq_def] at h
              simp [hdash, hl, hL, hb, hv] at h
            · rw [Bool.not_eq_true] at hdash
              rw [firstBadFlag_cons_nonflag hdash] at h
              obtain ⟨opts2, ho⟩ := parseLoop_complete rest (args ++ [t]) opts h
              refine ⟨opts2, ?_⟩
              rw [parseLoop_cons_nonflag hdash, positionals_cons_nonflag hdash, ho]
              simp

lemma parseArgs_eq_loop {argv : List String} (hhelp : argv.any isHelpTok = false)
    (hne : argv ≠ []) : parseArgs argv = parseLoop argv [] initOpts := by
  unfold parseArgs
  rw [hhelp]
  rw [if_neg (by simp)]
  rw [if_neg (fun h2 => hne (List.length_eq_zero.1 h2))]

lemma jsContainsGo_undef (arr : List String) (val : String) (fuel : Nat) :
    jsContainsGo arr val (fuel + 1) none = false := by
  rw [jsContainsGo.eq_def]
  simp [jsNumLt]

/-! ## Theorems for the specification claims -/

/-- C1: for every path that does not name a readable file, `readFile` fails
with a propagated IO error and never yields a partial or empty string (an
`ok` result always carries exactly the file's contents); in particular a
missing locale file requested via `retrieveLocale` surfaces as an error. -/
theorem readFile_error_propagation :
    (∀ (fs : String → Option String) (path : String), fs path = none →
      readFile fs path = Except.error "IO error: file missing or unreadable") ∧
    (∀ (fs : String → Option String) (path contents : String),
      readFile fs path = Except.ok contents → fs path = some contents) ∧
    (∀ (fs : String → Option String) (opts : Opts) (lang : String),
      fs (localeFilePath opts lang) = none →
      retrieveLocale fs opts lang = Except.error "IO error: file missing or unreadable") := by
  refine ⟨?_, ?_, ?_⟩
  · intro fs path h
    simp [readFile, contentsAtPath, initWithDataEncoding, h]
  · intro fs path contents h
    cases hf : fs path with
    | none => simp [readFile, contentsAtPath, initWithDataEncoding, hf] at h
    | some d =>
      simp [readFile, contentsAtPath, initWithDataEncoding, hf] at h
      rw [h]
  · intro fs opts lang h
    simp [retrieveLocale, readFile, contentsAtPath, initWithDataEncoding, h]

/-- Witness for C1 on the empty filesystem. -/
theorem readFile_error_propagation_witness :
    readFile emptyFs "style.csl" = Except.error "IO error: file missing or unreadable" ∧
    retrieveLocale emptyFs initOpts "en" = Except.error "IO error: file missing or unreadable" :=
  ⟨readFile_error_propagation.1 emptyFs "style.csl" rfl,
   readFile_error_propagation.2.2 emptyFs initOpts "en" rfl⟩

/-- C2 counterexample: two sibling wrapper elements concatenated are not a
single complete start-to-end wrapper, yet `stripOuterDiv` modifies them (the
generic regex matches across the sibling boundary). -/
theorem stripOuterDiv_sibling_counterexample :
    stripOuterDiv "<div>a</div><div>b</div>" = "a</div><div>b" ∧
    stripOuterDiv "<div>a</div><div>b</div>" ≠ "<div>a</div><div>b</div>" :=
  ⟨by decide, by decide⟩

/-- C2 (amended): `stripOuterDiv` returns unchanged every string that does
not match the generic wrapper pattern (literal `<div`, an attribute span,
`>`, nonempty line-terminator-free content, literal `</div>` at the very
end); in particular any string with no wrapper at all is unchanged.  Sibling
wrappers, however, do match the generic pattern and are modified. -/
theorem stripOuterDiv_nonmatching_unchanged (s : String)
    (h : ¬ MatchesWrapperPattern s) : stripOuterDiv s = s :=
  strip_eq_self_of_not_matches h

/-- Witness for C2 at the wrapper-free string `"hello"`. -/
theorem stripOuterDiv_nonmatching_unchanged_witness :
    stripOuterDiv "hello" = "hello" :=
  stripOuterDiv_nonmatching_unchanged "hello" (by
    rintro ⟨a, b, heq, -, -, -⟩
    have h2 := congrArg List.length heq
    have h3 : ("hello".toList).length = 5 := rfl
    rw [h3] at h2
    simp [wrapPrefix, wrapSuffix] at h2
    omega)

/-- C3 counterexample: an engine bibliography whose joined output is one
outer block element spanning the whole string but whose content contains a
line break; the bibliography-mode `html` field equals the raw wrapped string
(the regex `.` cannot cross a line terminator, so nothing is stripped). -/
theorem bibliography_html_multiline_counterexample :
    rawBibHtml newlineBibEngine = "<div>a\nb</div>" ∧
    (cite newlineBibEngine "r1" true).1.html = rawBibHtml newlineBibEngine :=
  ⟨by decide, by decide⟩

/-- C3 (amended): whenever the raw engine bibliography string matches the
generic single-line wrapper pattern, the bibliography-mode `html` field is
exactly one application of `stripOuterDiv` to it and is never equal to the
raw wrapped string. -/
theorem bibliography_html_strips_wrapped (e : EngineModel) (id : String)
    (h : MatchesWrapperPattern (rawBibHtml e)) :
    (cite e id true).1.html = stripOuterDiv (rawBibHtml e) ∧
    (cite e id true).1.html ≠ rawBibHtml e := by
  have htrim : jsTrim (rawBibHtml e) = rawBibHtml e := jsTrim_eq_self_of_matches h
  have hh : (cite e id true).1.html = stripOuterDiv (jsTrim (rawBibHtml e)) := rfl
  rw [htrim] at hh
  refine ⟨hh, ?_⟩
  rw [hh]
  exact strip_ne_self_of_matches h

/-- Witness for C3 on a sample engine with one wrapped entry. -/
theorem bibliography_html_strips_wrapped_witness :
    (cite sampleBibEngine "r1" true).1.html = stripOuterDiv (rawBibHtml sampleBibEngine) ∧
    (cite sampleBibEngine "r1" true).1.html ≠ rawBibHtml sampleBibEngine :=
  bibliography_html_strips_wrapped sampleBibEngine "r1"
    ⟨[], "Doe".toList, by decide, by decide, by decide, by decide⟩

/-- C4 counterexample: on a nested wrapper `stripOuterDiv` strips one layer
per application, so applying it twice differs from applying it once. -/
theorem stripOuterDiv_nested_counterexample :
    stripOuterDiv "<div><div>a</div></div>" = "<div>a</div>" ∧
    stripOuterDiv (stripOuterDiv "<div><div>a</div></div>") ≠
      stripOuterDiv "<div><div>a</div></div>" :=
  ⟨by decide, by decide⟩

/-- C4 (amended): applying `stripOuterDiv` twice equals applying it once
exactly when the first application's result does not itself match the
generic wrapper pattern; nested wrappers are stripped one layer at a time,
so the function is not idempotent in general. -/
theorem stripOuterDiv_idempotent_iff (s : String) :
    stripOuterDiv (stripOuterDiv s) = stripOuterDiv s ↔
      ¬ MatchesWrapperPattern (stripOuterDiv s) := by
  constructor
  · intro h hm
    exact strip_ne_self_of_matches hm h
  · intro hm
    exact strip_eq_self_of_not_matches hm

/-- C5: in citation-cluster mode `cite` performs exactly two cluster render
calls, both with the same single-element id list; the first happens in the
engine's default HTML format, the format switch to RTF happens strictly
after the first call (whose output is captured into `html`) and before the
second, and the fields carry the per-format cluster outputs. -/
theorem citation_mode_two_cluster_calls (e : EngineModel) (id : String) :
    (cite e id false).2 =
      [EngineCall.updateItems [id], EngineCall.makeCluster Format.html [id],
       EngineCall.setOutputFormat Format.rtf, EngineCall.makeCluster Format.rtf [id]] ∧
    (cite e id false).1.html = e.citationCluster Format.html [id] ∧
    (cite e id false).1.rtf = e.citationCluster Format.rtf [id] :=
  ⟨rfl, rfl, rfl⟩

/-- C6: in bibliography mode the `html` field is the second component of the
engine's HTML-format bibliography result joined with newlines, trimmed, then
wrapper-stripped; the `rtf` field is the second component of a second
bibliography call made after the switch to RTF, joined with newlines, with
no trim and no stripping; the call trace shows the switch between the two
bibliography calls. -/
theorem bibliography_mode_fields (e : EngineModel) (id : String) :
    (cite e id true).1.html =
      stripOuterDiv (jsTrim (String.intercalate "\n" (makeBibliography e Format.html).2)) ∧
    (cite e id true).1.rtf = String.intercalate "\n" (makeBibliography e Format.rtf).2 ∧
    (cite e id true).2 =
      [EngineCall.updateItems [id], EngineCall.makeBib Format.html,
       EngineCall.setOutputFormat Format.rtf, EngineCall.makeBib Format.rtf] :=
  ⟨rfl, rfl, rfl⟩

/-- C7 counterexample: `Configuration.locale` set to the empty string (e.g.
via `-l ""`) is a set locale, but the truthiness test in the `Citer`
constructor rejects it: the engine receives the default `("en", unforced)`
pair instead of the configured `("", forced)` pair. -/
theorem effectiveLocale_empty_counterexample :
    effectiveLocale (some "") = ("en", false) ∧ effectiveLocale (some "") ≠ ("", true) :=
  ⟨by decide, by decide⟩

/-- C7 (amended): the engine's locale pair is the configured locale marked
forced whenever `Configuration.locale` is set to a nonempty string, and the
default `"en"` unforced whenever it is unset or set to the empty string;
`-l fr-FR` on the command line yields the forced `fr-FR` pair. -/
theorem effectiveLocale_forced (s : String) (h : s ≠ "") :
    effectiveLocale (some s) = (s, true) ∧
    effectiveLocale none = ("en", false) ∧
    effectiveLocale (some "") = ("en", false) ∧
    parseArgs ["-l", "fr-FR", "a.csl", "b.json"] =
      ParseResult.ok
        { initOpts with
          locale := some "fr-FR", style := some "a.csl", csl := some "b.json" } ∧
    effectiveLocale (some "fr-FR") = ("fr-FR", true) := by
  refine ⟨?_, by decide, by decide, by decide, by decide⟩
  simp [effectiveLocale, jsTruthy, h]

/-- Witness for C7 at the locale `fr-FR`. -/
theorem effectiveLocale_forced_witness :
    effectiveLocale (some "fr-FR") = ("fr-FR", true) :=
  (effectiveLocale_forced "fr-FR" (by decide)).1

/-- C8: `parseArgs` exits with status 0 and plain usage whenever a help flag
appears anywhere in the arguments or the list is empty (regardless of the
other arguments); it exits with status 1 when the flag loop reaches an
unrecognised flag, and with status 1 when more than two positional arguments
are collected. -/
theorem parseArgs_exit_behaviour :
    (∀ argv : List String, ("-h" ∈ argv ∨ "--help" ∈ argv) →
      parseArgs argv = ParseResult.exit 0 none) ∧
    parseArgs [] = ParseResult.exit 0 none ∧
    (∀ (argv : List String) (s : String), argv.any isHelpTok = false →
      firstBadFlag argv = some s →
      parseArgs argv = ParseResult.exit 1 (some ("unknown option: " ++ s))) ∧
    (∀ argv : List String, argv.any isHelpTok = false → firstBadFlag argv = none →
      2 < (positionals argv).length →
      parseArgs argv = ParseResult.exit 1 (some "script takes 2 arguments")) := by
  refine ⟨?_, by decide, ?_, ?_⟩
  · intro argv h
    have hany : argv.any isHelpTok = true := by
      rcases h with h | h
      · exact List.any_eq_true.2 ⟨"-h", h, by decide⟩
      · exact List.any_eq_true.2 ⟨"--help", h, by decide⟩
    simp [parseArgs, hany, showHelp, jsTruthy]
  · intro argv s hhelp hbad
    have hne : argv ≠ [] := by
      intro he
      rw [he] at hbad
      simp [firstBadFlag] at hbad
    rw [parseArgs_eq_loop hhelp hne]
    exact parseLoop_badflag argv [] initOpts s hbad
  · intro argv hhelp hbad hpos
    have hne : argv ≠ [] := by
      intro he
      rw [he] at hpos
      simp [positionals] at hpos
    rw [parseArgs_eq_loop hhelp hne]
    obtain ⟨opts2, ho⟩ := parseLoop_complete argv [] initOpts hbad
    rw [ho]
    unfold finalizeArgs
    rw [if_pos (by simpa using hpos)]
    exact showHelp_pos (by decide)

/-- Witness for C8 on the spec's concrete argument vectors. -/
theorem parseArgs_exit_behaviour_witness :
    parseArgs ["-h", "--bogus"] = ParseResult.exit 0 none ∧
    parseArgs [] = ParseResult.exit 0 none ∧
    parseArgs ["--bogus", "a.csl", "b.json"] =
      ParseResult.exit 1 (some ("unknown option: " ++ "--bogus")) ∧
    parseArgs ["a.csl", "b.json", "c.json"] =
      ParseResult.exit 1 (some "script takes 2 arguments") :=
  ⟨parseArgs_exit_behaviour.1 ["-h", "--bogus"] (Or.inl (by decide)),
   parseArgs_exit_behaviour.2.1,
   parseArgs_exit_behaviour.2.2.1 ["--bogus", "a.csl", "b.json"] "--bogus" (by decide) (by decide),
   parseArgs_exit_behaviour.2.2.2 ["a.csl", "b.json", "c.json"] (by decide) (by decide) (by decide)⟩

/-- C9: `Array.prototype.contains` returns `false` for every array and every
value, because `for (var i; i < this.length; i++)` leaves the counter
`undefined` and the loop guard `undefined < length` is always false. -/
theorem contains_always_false (arr : List String) (val : String) :
    jsContains arr val = false := by
  unfold jsContains
  exact jsContainsGo_undef arr val arr.length

/-- C10: the value-taking flags consume the immediately following token
unconditionally — a following token starting with the flag marker is taken
as the value and never parsed as a flag — and a trailing `-l`/`-L` stores
the missing value as `undefined` without any parse error; the `Citer`
constructor then falls back to the unforced default locale `"en"`. -/
theorem value_flags_consume_next :
    (∀ (v : String) (rest args : List String) (opts : Opts),
      parseLoop ("-l" :: v :: rest) args opts =
        parseLoop rest args { opts with locale := some v }) ∧
    (∀ (v : String) (rest args : List String) (opts : Opts),
      parseLoop ("-L" :: v :: rest) args opts =
        parseLoop rest args { opts with localeDir := some v }) ∧
    (∀ (args : List String) (opts : Opts),
      parseLoop ["-l"] args opts = finalizeArgs args { opts with locale := none }) ∧
    (∀ (args : List String) (opts : Opts),
      parseLoop ["-L"] args opts = finalizeArgs args { opts with localeDir := none }) ∧
    parseArgs ["-l", "-b", "a.csl"] =
      ParseResult.ok { initOpts with locale := some "-b", style := some "a.csl" } ∧
    parseArgs ["a.csl", "b.json", "-l"] =
      ParseResult.ok { initOpts with style := some "a.csl", csl := some "b.json" } ∧
    effectiveLocale none = ("en", false) := by
  refine ⟨?_, ?_, ?_, ?_, by decide, by decide, by decide⟩
  · intro v rest args opts
    rw [parseLoop.eq_def]
    simp [startsWithDash]
  · intro v rest args opts
    rw [parseLoop.eq_def]
    simp [startsWithDash]
  · intro args opts
    rw [parseLoop.eq_def]
    simp [startsWithDash, parseLoop]
  · intro args opts
    rw [parseLoop.eq_def]
    simp [startsWithDash, parseLoop]

end CiteJs
